import Mathlib

/-!
Verification development for the CronoPay conditional execution engine.

Shallow embedding of:
* the plan data model (`src/planning/types.ts`),
* the base condition evaluator (`src/execution/condition-evaluator.ts`),
* the market condition evaluator (`src/execution/market-condition-evaluator.ts`)
  and the market client (`src/market/crypto-com-client.ts`),
* the plan validator (`src/planning/plan-validator.ts`),
* the execution engine (`src/execution/execution-engine.ts`),
* the nonce cache of `CronosTransferExecutor.transferToken`
  (`src/finance/cronos-transfer-executor.ts`).

JavaScript numbers are embedded as `Option ℚ`, where `none` stands for `NaN`
(the only non-finite value these code paths can produce: `parseFloat` of a
non-numeric string). External collaborators (the MCP tool transport, the
ledger, the market-data service) are embedded as explicit oracle records, and
a thrown JavaScript exception is an `Except.error` carrying the message.
-/

/-! ## Plan data model (src/planning/types.ts) -/

/-- Risk tiers, ordered `low < medium < high < critical`. -/
inductive RiskLevel where
  | low
  | medium
  | high
  | critical
deriving DecidableEq, Repr

/-- Step statuses. -/
inductive StepStatus where
  | pending
  | inProgress
  | completed
  | failed
  | skipped
deriving DecidableEq, Repr

/-- Condition operators (enum values "gt", "lt", "eq", "neq", "gte", "lte"). -/
inductive ConditionOperator where
  | gt
  | lt
  | eq
  | neq
  | gte
  | lte
deriving DecidableEq, Repr

/-- String form of a risk level (the TypeScript enum value). -/
def RiskLevel.str : RiskLevel → String
  | .low => "low"
  | .medium => "medium"
  | .high => "high"
  | .critical => "critical"

/-- String form of an operator (the TypeScript enum value). -/
def ConditionOperator.str : ConditionOperator → String
  | .gt => "gt"
  | .lt => "lt"
  | .eq => "eq"
  | .neq => "neq"
  | .gte => "gte"
  | .lte => "lte"

/-! ## JavaScript numbers and `parseFloat` -/

/-- A JavaScript number: `none` is `NaN`, `some q` a finite value. -/
abbrev JSNum := Option ℚ

/-- Digit list to natural number, most significant first. -/
def digitsToNat (cs : List Char) : ℕ :=
  cs.foldl (fun n c => 10 * n + (c.toNat - 48)) 0

/-- Core of `parseFloat` after the sign: longest prefix `digits[.digits]`.
Returns `none` (`NaN`) when no digit is consumed. -/
def parseFloatCore (cs : List Char) : JSNum :=
  let intDs := cs.takeWhile Char.isDigit
  let rest := cs.dropWhile Char.isDigit
  match rest with
  | '.' :: rest2 =>
      let fracDs := rest2.takeWhile Char.isDigit
      if intDs.isEmpty && fracDs.isEmpty then none
      else some ((digitsToNat intDs : ℚ) + (digitsToNat fracDs : ℚ) / (10 ^ fracDs.length))
  | _ => if intDs.isEmpty then none else some (digitsToNat intDs)

/-- Model of JavaScript `parseFloat` on plain decimal literals: optional
leading blanks and sign, then digits with at most one decimal point, ignoring
any trailing text; every other input gives `NaN` (exponents, `Infinity` and
hex forms, which none of these code paths feed it, are out of the model). -/
def parseFloat (s : String) : JSNum :=
  match s.toList.dropWhile (fun c => c = ' ') with
  | '-' :: cs => (parseFloatCore cs).map (fun q => -q)
  | '+' :: cs => parseFloatCore cs
  | cs => parseFloatCore cs

/-- Display of a JavaScript number inside template strings. Rendering of
finite values is not text-faithful to JS decimal printing (it prints the
rational), which no theorem depends on; `NaN` prints as in JS. -/
def jsNumDisplay (q : JSNum) : String :=
  match q with
  | none => "NaN"
  | some v => toString v

/-- A JavaScript value flowing through conditions: `string | number`. -/
inductive JSValue where
  | str (s : String)
  | num (q : JSNum)
deriving DecidableEq, Repr

/-- Coercion used by `compareValues`: strings go through `parseFloat`,
numbers are kept. -/
def JSValue.toNum : JSValue → JSNum
  | .str s => parseFloat s
  | .num q => q

/-- Display of a value inside template strings (`String(v)` / interpolation). -/
def JSValue.display : JSValue → String
  | .str s => s
  | .num q => jsNumDisplay q

/-- Model of JavaScript `toLowerCase` on the ASCII strings these code paths
compare, mapping `Char.toLower` over the characters. -/
def jsToLower (s : String) : String :=
  String.mk (s.data.map Char.toLower)

/-- A condition (src/planning/types.ts). `type` is kept as a raw string
because evaluators must face unknown kinds coming from untrusted drafts. -/
structure Condition where
  type : String
  field : String
  operator : ConditionOperator
  value : JSValue
  description : String := ""
  symbol : Option String := none
deriving DecidableEq, Repr

/-- JavaScript falsiness of an optional string: absent or empty. -/
def jsFalsyStr : Option String → Bool
  | none => true
  | some s => s = ""

/-- Model of `error?.message || String(error)`: an empty message falls back
to the error's string form, rendered here as "Error". -/
def jsErrMsg (e : String) : String :=
  if e = "" then "Error" else e

/-! ## Base condition evaluator (src/execution/condition-evaluator.ts) -/

namespace ConditionEvaluator

/-- Comparison on already-coerced numbers, as the `switch` in
`ConditionEvaluator.compareValues` does it: exact `===` / `!==` for equality,
every comparison with `NaN` false except `!==`, which is true. -/
def compareNums (a : JSNum) (op : ConditionOperator) (e : JSNum) : Bool :=
  match op with
  | .gt => match a, e with
    | some x, some y => x > y
    | _, _ => false
  | .lt => match a, e with
    | some x, some y => x < y
    | _, _ => false
  | .eq => match a, e with
    | some x, some y => x == y
    | _, _ => false
  | .neq => match a, e with
    | some x, some y => x != y
    | _, _ => true
  | .gte => match a, e with
    | some x, some y => x ≥ y
    | _, _ => false
  | .lte => match a, e with
    | some x, some y => x ≤ y
    | _, _ => false

/-- `ConditionEvaluator.compareValues`: coerce string operands with
`parseFloat`, then compare. -/
def compareValues (actual : JSValue) (op : ConditionOperator) (expected : JSValue) : Bool :=
  compareNums actual.toNum op expected.toNum

/-- The already-parsed shape of a `getBalance` tool result. The source
receives it as a JSON string and parses it; results are modelled as
structured records. -/
structure BalanceResp where
  balance : String
  symbol : String
deriving DecidableEq, Repr

/-- The evaluation context: the `getBalance` collaborator call as an oracle
(`Except.error` models a thrown transport error) and the execution-state map. -/
structure Context where
  getBalance : Except String BalanceResp
  executionState : List (String × JSValue)

/-- Result record of `ConditionEvaluator.evaluate`. Every return site of the
source sets `reason`, so it is a plain string here. -/
structure EvalResult where
  met : Bool
  actualValue : Option JSValue := none
  reason : String
deriving DecidableEq, Repr

/-- `ConditionEvaluator.evaluateBalanceCheck`: query the ledger balance
collaborator, parse, compare against the condition. A failed query is a
thrown error (`Except.error`), caught by `evaluate`. -/
def evaluateBalanceCheck (cond : Condition) (ctx : Context) : Except String EvalResult := do
  let resp ← ctx.getBalance
  let actualBalance := parseFloat resp.balance
  let requiredBalance := cond.value.toNum
  let met := compareNums actualBalance cond.operator requiredBalance
  pure { met
         actualValue := some (.num actualBalance)
         reason :=
           if met then
             "Balance " ++ jsNumDisplay actualBalance ++ " " ++ resp.symbol ++
               " meets requirement (" ++ cond.operator.str ++ " " ++
               jsNumDisplay requiredBalance ++ ")"
           else
             "Insufficient balance: " ++ jsNumDisplay actualBalance ++ " " ++ resp.symbol ++
               " (required: " ++ cond.operator.str ++ " " ++
               jsNumDisplay requiredBalance ++ ")" }

/-- `ConditionEvaluator.evaluateCustomCondition`: look up `field` in the
execution state; absence is not-met with a "not found" reason. -/
def evaluateCustomCondition (cond : Condition) (ctx : Context) : EvalResult :=
  match ctx.executionState.lookup cond.field with
  | none =>
      { met := false
        reason := "Field '" ++ cond.field ++ "' not found in execution state" }
  | some actual =>
      let met := compareValues actual cond.operator cond.value
      { met
        actualValue := some actual
        reason :=
          if met then
            "Condition met: " ++ cond.field ++ " " ++ cond.operator.str ++ " " ++
              cond.value.display
          else
            "Condition not met: " ++ cond.field ++ " = " ++ actual.display ++
              " (expected " ++ cond.operator.str ++ " " ++ cond.value.display ++ ")" }

/-- `ConditionEvaluator.evaluate`: dispatch on `condition.type`, with the
source's top-level try/catch turning any thrown error into a not-met result
whose reason carries the message. Total by construction. -/
def evaluate (cond : Condition) (ctx : Context) : EvalResult :=
  let run : Except String EvalResult :=
    if cond.type = "balance_check" then
      evaluateBalanceCheck cond ctx
    else if cond.type = "custom" then
      pure (evaluateCustomCondition cond ctx)
    else
      pure { met := false, reason := "Unknown condition type: " ++ cond.type }
  match run with
  | .ok r => r
  | .error e => { met := false, reason := "Condition evaluation error: " ++ jsErrMsg e }

end ConditionEvaluator

/-! ## Market client (src/market/crypto-com-client.ts) -/

/-- The raw record returned by the market-data collaborator's
`get_current_price` tool. -/
structure RawPriceResult where
  cryptocurrency : Option String := none
  price : Option String := none
  change_24h : Option String := none
  volume_24h : Option String := none
deriving DecidableEq, Repr

/-- Oracle for the market-data collaborator: the outcome of connecting and,
per requested symbol, the outcome of the price query. -/
structure MarketOracle where
  connectResult : Except String Unit
  priceResult : String → Except String RawPriceResult

namespace CryptoComMarketClient

/-- `PriceData` as built by `CryptoComMarketClient.getPrice`; `change24h`
and `volume24h` are `undefined` (outer `none`) when the raw field is falsy. -/
structure PriceData where
  symbol : String
  price : JSNum
  change24h : Option JSNum := none
  volume24h : Option JSNum := none
deriving DecidableEq, Repr

/-- `CryptoComMarketClient.getPrice`: call the collaborator and build
`PriceData` with the source's falsy-based defaults. -/
def getPrice (o : MarketOracle) (connected : Bool) (symbol : String) :
    Except String PriceData := do
  if !connected then
    throw "Market data client not connected"
  let r ← o.priceResult symbol.toUpper
  pure { symbol := if jsFalsyStr r.cryptocurrency then symbol else r.cryptocurrency.getD symbol
         price := parseFloat (if jsFalsyStr r.price then "0" else r.price.getD "0")
         change24h :=
           if jsFalsyStr r.change_24h then none
           else some (parseFloat (r.change_24h.getD ""))
         volume24h :=
           if jsFalsyStr r.volume_24h then none
           else some (parseFloat (r.volume_24h.getD "")) }

/-- `CryptoComMarketClient.getVolatility`: absolute 24h change; throws when
the 24h change is absent. -/
def getVolatility (o : MarketOracle) (connected : Bool) (symbol : String) :
    Except String JSNum := do
  if !connected then
    throw "Market data client not connected"
  let pd ← getPrice o connected symbol
  match pd.change24h with
  | some v => pure (v.map abs)
  | none =>
      throw ("Unable to calculate volatility for " ++ symbol ++
        ": no 24h price change data available")

/-- `CryptoComMarketClient.getPriceChange`: `change24h || 0`. `undefined`,
`NaN` and `0` are all falsy, so the result is always a finite number. -/
def getPriceChange (o : MarketOracle) (connected : Bool) (symbol : String) :
    Except String ℚ := do
  if !connected then
    throw "Market data client not connected"
  let pd ← getPrice o connected symbol
  pure (match pd.change24h with
        | some (some q) => q
        | _ => 0)

/-- `CryptoComMarketClient.getMarketTrend`: fixed bands over the 24h change. -/
def getMarketTrend (o : MarketOracle) (connected : Bool) (symbol : String) :
    Except String String := do
  if !connected then
    throw "Market data client not connected"
  let priceChange ← getPriceChange o connected symbol
  pure (if priceChange > 2 then "bullish"
        else if priceChange < -2 then "bearish"
        else "neutral")

end CryptoComMarketClient

/-! ## Market condition evaluator (src/execution/market-condition-evaluator.ts) -/

namespace MarketConditionEvaluator

/-- The epsilon of the market evaluator's equality comparison. -/
def epsilon : ℚ := 0.0001

/-- The `marketData` record attached to market condition results. -/
structure MarketData where
  symbol : String
  price : Option JSNum := none
  volatility : Option JSNum := none
  trend : Option String := none
  change24h : Option JSNum := none
deriving DecidableEq, Repr

/-- Result record of `MarketConditionEvaluator.evaluate`. Every return site
of the source sets `reason`. -/
structure MarketResult where
  met : Bool
  actualValue : Option JSValue := none
  reason : String
  marketData : Option MarketData := none
deriving DecidableEq, Repr

/-- `MarketConditionEvaluator.compareValues`: epsilon-based equality and
inequality (`Math.abs(actual - expected) < 0.0001`, resp. `>= 0.0001`);
every comparison involving `NaN` is false, the not-equal one included. -/
def compareValues (actual : JSNum) (op : ConditionOperator) (expected : JSNum) : Bool :=
  match actual, expected with
  | some a, some e =>
      match op with
      | .gt => a > e
      | .lt => a < e
      | .eq => |a - e| < epsilon
      | .neq => |a - e| ≥ epsilon
      | .gte => a ≥ e
      | .lte => a ≤ e
  | _, _ => false

/-- Text form of an operator used in market reasons
(`MarketConditionEvaluator.operatorToText`). -/
def operatorToText (op : ConditionOperator) : String :=
  match op with
  | .gt => ">"
  | .lt => "<"
  | .eq => "="
  | .neq => "≠"
  | .gte => "≥"
  | .lte => "≤"

/-- `MarketConditionEvaluator.evaluatePriceCondition`. Client calls run with
a connected client (`evaluate` has already connected). The `toFixed`
renderings of the reason text are modelled by the rational's display, which
no theorem's conclusion depends on. -/
def evaluatePriceCondition (o : MarketOracle) (cond : Condition) :
    Except String MarketResult := do
  if jsFalsyStr cond.symbol then
    return { met := false, reason := "Price condition requires a symbol" }
  let sym := cond.symbol.getD ""
  let priceData ← CryptoComMarketClient.getPrice o true sym
  let actualPrice := priceData.price
  let expectedValue := parseFloat cond.value.display
  let met := compareValues actualPrice cond.operator expectedValue
  pure { met
         actualValue := some (.num actualPrice)
         reason :=
           if met then
             sym ++ " price $" ++ jsNumDisplay actualPrice ++ " " ++
               operatorToText cond.operator ++ " $" ++ jsNumDisplay expectedValue
           else
             sym ++ " price $" ++ jsNumDisplay actualPrice ++
               " does not meet condition (" ++ operatorToText cond.operator ++ " $" ++
               jsNumDisplay expectedValue ++ ")"
         marketData := some { symbol := sym
                              price := some actualPrice
                              change24h := priceData.change24h } }

/-- `MarketConditionEvaluator.evaluateVolatilityCondition`. -/
def evaluateVolatilityCondition (o : MarketOracle) (cond : Condition) :
    Except String MarketResult := do
  if jsFalsyStr cond.symbol then
    return { met := false, reason := "Volatility condition requires a symbol" }
  let sym := cond.symbol.getD ""
  let volatility ← CryptoComMarketClient.getVolatility o true sym
  let expectedValue := parseFloat cond.value.display
  let met := compareValues volatility cond.operator expectedValue
  pure { met
         actualValue := some (.num volatility)
         reason :=
           if met then
             sym ++ " volatility " ++ jsNumDisplay volatility ++ "% " ++
               operatorToText cond.operator ++ " " ++ jsNumDisplay expectedValue ++ "%"
           else
             sym ++ " volatility " ++ jsNumDisplay volatility ++
               "% does not meet condition (" ++ operatorToText cond.operator ++ " " ++
               jsNumDisplay expectedValue ++ "%)"
         marketData := some { symbol := sym, volatility := some volatility } }

/-- `MarketConditionEvaluator.evaluateTrendCondition`: the derived trend
string compared against the lower-cased expected value. -/
def evaluateTrendCondition (o : MarketOracle) (cond : Condition) :
    Except String MarketResult := do
  if jsFalsyStr cond.symbol then
    return { met := false, reason := "Trend condition requires a symbol" }
  let sym := cond.symbol.getD ""
  let trend ← CryptoComMarketClient.getMarketTrend o true sym
  let expectedTrend := jsToLower cond.value.display
  let met := trend == expectedTrend
  pure { met
         actualValue := some (.str trend)
         reason :=
           if met then
             sym ++ " trend is " ++ trend ++ " (matches expected " ++ expectedTrend ++ ")"
           else
             sym ++ " trend is " ++ trend ++ " (expected " ++ expectedTrend ++ ")"
         marketData := some { symbol := sym, trend := some trend } }

/-- Dispatch part of `MarketConditionEvaluator.evaluate`: the switch over
market condition types inside its try/catch. -/
def evalDispatch (o : MarketOracle) (cond : Condition) : MarketResult :=
  let run : Except String MarketResult :=
    if cond.type = "price_check" then
      evaluatePriceCondition o cond
    else if cond.type = "volatility_check" then
      evaluateVolatilityCondition o cond
    else if cond.type = "trend_check" then
      evaluateTrendCondition o cond
    else
      pure { met := false, reason := "Unsupported market condition type: " ++ cond.type }
  match run with
  | .ok r => r
  | .error e => { met := false, reason := "Market condition evaluation failed: " ++ e }

/-- `MarketConditionEvaluator.evaluate`: lazily connect (the `connected`
flag caches a previous success for the evaluator's lifetime); a connection
failure degrades to not-met with the wrapped reason; otherwise dispatch.
Total by construction, mirroring the source's try/catch blocks. -/
def evaluate (o : MarketOracle) (connected : Bool) (cond : Condition) : MarketResult :=
  if connected then
    evalDispatch o cond
  else
    match o.connectResult with
    | .ok _ => evalDispatch o cond
    | .error e =>
        { met := false
          reason := "Cannot evaluate market condition: Failed to connect to Crypto.com Market Data MCP: " ++
            e ++ ". Market-aware conditions require access to https://mcp.crypto.com/market-data/mcp" }

end MarketConditionEvaluator

/-! ## Plan validator (src/planning/plan-validator.ts)

Draft plans come from the untrusted proposal service, so every required
field is embedded as an `Option`: `none` models a missing or wrongly-typed
field. A thrown `TypeError` (reading a property of `undefined`, or
destructuring `undefined`) is an `Except.error`. -/

namespace PlanValidator

/-- The `parameters` record of a draft step, as far as the validator reads
it. `toAddr` embeds the source field `to` (a reserved word here). -/
structure VParams where
  toAddr : Option String := none
  amount : Option String := none
deriving DecidableEq, Repr

/-- A draft condition: every field may be missing. -/
structure VCond where
  type : Option String := none
  field : Option String := none
  operator : Option ConditionOperator := none
  value : Option JSValue := none
  symbol : Option String := none
deriving DecidableEq, Repr

/-- A draft step: every field may be missing. `parameters = none` models a
missing (or `null`) parameters record, the one the `transferToken` branch
would crash destructuring. -/
structure DraftStep where
  id : Option String := none
  action : Option String := none
  toolName : Option String := none
  parameters : Option VParams := none
  conditions : Option (List VCond) := none
  riskLevel : Option RiskLevel := none
deriving DecidableEq, Repr

/-- A draft plan: `steps = none` models a missing or non-array `steps`
field, `overallRiskLevel = none` a missing value or one outside the enum. -/
structure DraftPlan where
  id : Option String := none
  intent : Option String := none
  normalizedIntent : Option String := none
  steps : Option (List DraftStep) := none
  overallRiskLevel : Option RiskLevel := none
deriving DecidableEq, Repr

/-- Validation result record. -/
structure PlanValidationResult where
  valid : Bool
  errors : List String
  warnings : List String
deriving DecidableEq, Repr

/-- `PlanValidator.validateSchema`: presence and typing of the top-level
fields, in source order. -/
def validateSchema (p : DraftPlan) : List String :=
  (if jsFalsyStr p.id then ["Plan must have a valid id"] else []) ++
  (if jsFalsyStr p.intent then ["Plan must have a valid intent"] else []) ++
  (if jsFalsyStr p.normalizedIntent then ["Plan must have a normalized intent"] else []) ++
  (if (match p.steps with | none => true | some l => l.isEmpty) then
    ["Plan must have at least one step"] else []) ++
  (if p.overallRiskLevel = none then ["Plan must have a valid overall risk level"] else [])

/-- `PlanValidator.validateTransferStep`: recipient and amount checks of a
`transferToken` step, given its (present) parameters. Returns (errors,
warnings). -/
def validateTransferStep (params : VParams) (stepLabel : String) :
    List String × List String :=
  let toErrs :=
    if (match params.toAddr with
        | none => true
        | some t => t = "" || !t.startsWith "0x") then
      [stepLabel ++ ": Invalid recipient address"] else []
  let amountChecked :=
    match params.amount with
    | none => ([stepLabel ++ ": Invalid amount"], [])
    | some a =>
        if a = "" then ([stepLabel ++ ": Invalid amount"], [])
        else
          let amountNum := parseFloat a
          ((if (match amountNum with | none => true | some q => q ≤ 0) then
              [stepLabel ++ ": Amount must be a positive number"] else []),
           (if (match amountNum with | none => false | some q => q > 1000) then
              [stepLabel ++ ": Large transfer amount (" ++ a ++ " USDC)"] else []))
  (toErrs ++ amountChecked.1, amountChecked.2)

/-- Per-step part of `PlanValidator.validateSteps`: the field checks and, for
`transferToken` steps, the transfer checks. Destructuring a missing
`parameters` record throws. -/
def validateStep (tools : List String) (idx : ℕ) (s : DraftStep) :
    Except String (List String × List String) :=
  let stepLabel := "Step " ++ toString (idx + 1)
  let idErrs := if jsFalsyStr s.id then [stepLabel ++ ": Missing or invalid step id"] else []
  let toolErrs :=
    if jsFalsyStr s.toolName then [stepLabel ++ ": Missing tool name"]
    else if tools.contains (s.toolName.getD "") then []
    else [stepLabel ++ ": Unknown tool '" ++ s.toolName.getD "" ++ "'"]
  let actionErrs :=
    if jsFalsyStr s.action then [stepLabel ++ ": Missing action description"] else []
  let paramErrs :=
    if s.parameters = none then [stepLabel ++ ": Missing or invalid parameters"] else []
  let riskErrs :=
    if s.riskLevel = none then [stepLabel ++ ": Invalid risk level"] else []
  let fieldErrs := idErrs ++ toolErrs ++ actionErrs ++ paramErrs ++ riskErrs
  if s.toolName = some "transferToken" then
    match s.parameters with
    | none =>
        throw "TypeError: Cannot destructure property 'to' of 'step.parameters' as it is undefined."
    | some params =>
        let checked := validateTransferStep params stepLabel
        pure (fieldErrs ++ checked.1, checked.2)
  else
    pure (fieldErrs, [])

/-- Indexed traversal of the step list for `validateSteps`. -/
def validateStepsList (tools : List String) : ℕ → List DraftStep →
    Except String (List String × List String)
  | _, [] => pure ([], [])
  | i, s :: rest => do
      let head ← validateStep tools i s
      let tail ← validateStepsList tools (i + 1) rest
      pure (head.1 ++ tail.1, head.2 ++ tail.2)

/-- `PlanValidator.validateSteps`: iterating a missing `steps` array throws. -/
def validateSteps (tools : List String) (steps : Option (List DraftStep)) :
    Except String (List String × List String) :=
  match steps with
  | none => throw "TypeError: Cannot read properties of undefined (reading 'forEach')"
  | some l => validateStepsList tools 0 l

/-- The numeric priority of a risk level in `getHighestRiskLevel`. -/
def riskPriority : RiskLevel → ℕ
  | .critical => 4
  | .high => 3
  | .medium => 2
  | .low => 1

/-- `PlanValidator.getHighestRiskLevel`: reduce with initial `low`. A missing
step risk indexes the priority table at `undefined`, and `undefined > n` is
false in JavaScript, so it never displaces the running maximum. -/
def getHighestRiskLevel (levels : List (Option RiskLevel)) : RiskLevel :=
  levels.foldl
    (fun highest current =>
      match current with
      | none => highest
      | some c => if riskPriority c > riskPriority highest then c else highest)
    RiskLevel.low

/-- Display of a possibly-missing risk level inside a template string. -/
def riskOptStr (rl : Option RiskLevel) : String :=
  match rl with
  | none => "undefined"
  | some r => r.str

/-- `PlanValidator.validateRiskLevels`: warnings only; mapping over a
missing `steps` array throws. -/
def validateRiskLevels (p : DraftPlan) : Except String (List String) :=
  match p.steps with
  | none => throw "TypeError: Cannot read properties of undefined (reading 'map')"
  | some l =>
      let highestRisk := getHighestRiskLevel (l.map (fun s => s.riskLevel))
      pure
        ((if some highestRisk ≠ p.overallRiskLevel then
            ["Overall risk level (" ++ riskOptStr p.overallRiskLevel ++
              ") doesn't match highest step risk (" ++ highestRisk.str ++ ")"]
          else []) ++
         (if p.overallRiskLevel = some RiskLevel.critical then
            ["CRITICAL risk operation - requires manual review"]
          else []))

/-- The condition kinds `validateConditions` accepts. -/
def validConditionTypes : List String :=
  ["balance_check", "price_check", "volatility_check", "trend_check", "custom"]

/-- Per-condition checks of `PlanValidator.validateConditions`. -/
def validateCond (sIdx cIdx : ℕ) (c : VCond) : List String :=
  let condLabel := "Step " ++ toString (sIdx + 1) ++ ", Condition " ++ toString (cIdx + 1)
  (if (match c.type with
       | none => true
       | some t => !validConditionTypes.contains t) then
    [condLabel ++ ": Invalid condition type '" ++ c.type.getD "undefined" ++ "'"] else []) ++
  (if jsFalsyStr c.field then [condLabel ++ ": Missing condition field"] else []) ++
  (if c.operator = none then [condLabel ++ ": Missing condition operator"] else []) ++
  (if c.value = none then [condLabel ++ ": Missing condition value"] else []) ++
  (if ["price_check", "volatility_check", "trend_check"].contains (c.type.getD "") &&
      jsFalsyStr c.symbol then
    [condLabel ++ ": Market condition requires 'symbol' field"] else [])

/-- Indexed traversal of one step's condition list. -/
def validateCondList (sIdx : ℕ) : ℕ → List VCond → List String
  | _, [] => []
  | ci, c :: rest => validateCond sIdx ci c ++ validateCondList sIdx (ci + 1) rest

/-- Conditions of one step: a missing or empty list is skipped. -/
def validateConditionsStep (sIdx : ℕ) (s : DraftStep) : List String :=
  match s.conditions with
  | none => []
  | some cs => if cs.isEmpty then [] else validateCondList sIdx 0 cs

/-- Indexed traversal of the step list for `validateConditions`. -/
def validateConditionsList : ℕ → List DraftStep → List String
  | _, [] => []
  | i, s :: rest => validateConditionsStep i s ++ validateConditionsList (i + 1) rest

/-- `PlanValidator.validateConditions`: iterating a missing `steps` array
throws. -/
def validateConditions (steps : Option (List DraftStep)) : Except String (List String) :=
  match steps with
  | none => throw "TypeError: Cannot read properties of undefined (reading 'forEach')"
  | some l => pure (validateConditionsList 0 l)

/-- `PlanValidator.sanityChecks`: heuristic warnings; reading the length of
a missing `steps` array throws. -/
def sanityChecks (p : DraftPlan) : Except String (List String) :=
  match p.steps with
  | none => throw "TypeError: Cannot read properties of undefined (reading 'length')"
  | some l =>
      let transferSteps := l.filter (fun s => s.toolName = some "transferToken")
      let hasBalanceCheck := l.any (fun s =>
        match s.conditions with
        | none => false
        | some cs => cs.any (fun c => c.type = some "balance_check"))
      pure
        ((if l.length > 10 then
            ["Plan has " ++ toString l.length ++
              " steps - consider breaking into smaller operations"]
          else []) ++
         (if transferSteps.length > 3 then
            ["Plan includes " ++ toString transferSteps.length ++
              " transfers - verify this is intentional"]
          else []) ++
         (if transferSteps.length > 0 && !hasBalanceCheck then
            ["Transfer operation without balance check condition"]
          else []))

/-- `PlanValidator.validate`: run the five phases in order, accumulating errors
and warnings; `valid` iff no error. A `TypeError` raised by a phase
propagates to the caller as `Except.error`. -/
def validate (tools : List String) (p : DraftPlan) :
    Except String PlanValidationResult := do
  let schemaErrs := validateSchema p
  let stepsChecked ← validateSteps tools p.steps
  let riskWarns ← validateRiskLevels p
  let condErrs ← validateConditions p.steps
  let sanityWarns ← sanityChecks p
  let errors := schemaErrs ++ stepsChecked.1 ++ condErrs
  pure { valid := errors.isEmpty
         errors
         warnings := stepsChecked.2 ++ riskWarns ++ sanityWarns }

end PlanValidator

/-! ## Execution engine (src/execution/execution-engine.ts)

The engine is embedded over an oracle `Env` that fixes, for every condition
of every step, the outcome its evaluator would report, and for every tool
invocation, the collaborator's result or thrown error. The engine emits a
trace of events so that "this condition was evaluated" and "this operation
was invoked" are observable facts of a run. -/

namespace ExecutionEngine

/-- Observable external interactions of a run. -/
inductive Event where
  | condEval (stepId : String) (idx : ℕ)
  | toolCall (stepId : String)
deriving DecidableEq, Repr

/-- A tool result, modelled as the already-parsed record the source obtains
from `JSON.parse`; only the fields `updateExecutionState` projects are kept. -/
structure ToolResult where
  balance : Option String := none
  symbol : Option String := none
  txHash : Option String := none
  amount : Option String := none
deriving DecidableEq, Repr

/-- A value stored in the execution-state map. -/
inductive SVal where
  | toolRes (r : ToolResult)
  | stepStat (s : StepStatus)
  | strV (s : Option String)
  | marketV (m : MarketConditionEvaluator.MarketData)
deriving DecidableEq, Repr

/-- The execution-state map; `set` prepends and `lookup` takes the first hit. -/
abbrev ExecState := List (String × SVal)

/-- `executionState.set`. -/
def setState (k : String) (v : SVal) (st : ExecState) : ExecState :=
  (k, v) :: st

/-- The engine-visible part of a condition: its dispatch type and symbol. -/
structure EngCond where
  type : String
  symbol : Option String := none
deriving DecidableEq, Repr

/-- An execution step as the engine reads and mutates it. -/
structure EStep where
  id : String
  action : String := ""
  toolName : String
  parameters : List (String × JSValue) := []
  conditions : List EngCond := []
  riskLevel : RiskLevel
  status : StepStatus := .pending
  result : Option ToolResult := none
  error : Option String := none
deriving DecidableEq, Repr

/-- An execution plan as the engine reads it. -/
structure EPlan where
  id : String
  steps : List EStep
  overallRiskLevel : RiskLevel
deriving DecidableEq, Repr

/-- What an evaluator reports for one condition: met flag, optional reason,
and (for market conditions) the observed market data. -/
structure EngCondOutcome where
  met : Bool
  reason : Option String := none
  marketData : Option MarketConditionEvaluator.MarketData := none

/-- The oracle for a run: condition outcomes by step id and condition index,
and tool-call outcomes by tool name and parameters. -/
structure Env where
  condOutcome : String → ℕ → EngCondOutcome
  toolOutcome : String → List (String × JSValue) → Except String ToolResult

/-- `ExecutionOptions` with the source's defaults. -/
structure Options where
  verbose : Bool := true
  stopOnFailure : Bool := true
deriving DecidableEq, Repr

/-- Return shape of `evaluateStepConditions`, extended with the state it
wrote (market-data projections) and the events it emitted. -/
structure CondsResult where
  allMet : Bool
  reason : Option String := none
  details : List String
  state : ExecState
  events : List Event
deriving Repr

/-- The condition types the engine routes to the market evaluator. -/
def marketCondTypes : List String :=
  ["price_check", "volatility_check", "trend_check"]

/-- Model of `result.reason || 'Condition not met'`. -/
def reasonOrDefault (r : Option String) : String :=
  match r with
  | some s => if s = "" then "Condition not met" else s
  | none => "Condition not met"

/-- Model of `if (result.reason) details.push(result.reason)`. -/
def detailPush (r : Option String) : List String :=
  match r with
  | some s => if s = "" then [] else [s]
  | none => []

/-- The loop of `evaluateStepConditions`, carrying the index of the next
condition. Market outcomes write their observed data into the state before
the met check; the first unmet condition short-circuits with its reason. -/
def evalCondsAux (env : Env) (sid : String) : ℕ → List EngCond → ExecState → CondsResult
  | _, [], st => { allMet := true, details := [], state := st, events := [] }
  | i, c :: rest, st =>
      let out := env.condOutcome sid i
      let st1 :=
        if marketCondTypes.contains c.type then
          match out.marketData with
          | some m =>
              setState ("market_" ++ (match c.symbol with | some s => s | none => "undefined"))
                (.marketV m) st
          | none => st
        else st
      if out.met then
        let restRes := evalCondsAux env sid (i + 1) rest st1
        { allMet := restRes.allMet
          reason := restRes.reason
          details := detailPush out.reason ++ restRes.details
          state := restRes.state
          events := .condEval sid i :: restRes.events }
      else
        { allMet := false
          reason := some (reasonOrDefault out.reason)
          details := []
          state := st1
          events := [.condEval sid i] }

/-- `ExecutionEngine.evaluateStepConditions`: an absent or empty condition
list is vacuously met. -/
def evaluateStepConditions (env : Env) (s : EStep) (st : ExecState) : CondsResult :=
  evalCondsAux env s.id 0 s.conditions st

/-- `ExecutionEngine.updateExecutionState`: the generic per-step keys plus
the well-known projections of `getBalance` and `transferToken` results. -/
def updateExecutionState (s : EStep) (r : ToolResult) (st : ExecState) : ExecState :=
  let st1 := setState ("step_" ++ s.id ++ "_result") (.toolRes r) st
  let st2 := setState ("step_" ++ s.id ++ "_status") (.stepStat s.status) st1
  let st3 :=
    if s.toolName = "getBalance" then
      setState "balance_symbol" (.strV r.symbol) (setState "current_balance" (.strV r.balance) st2)
    else st2
  if s.toolName = "transferToken" then
    setState "last_transfer_amount" (.strV r.amount) (setState "last_tx_hash" (.strV r.txHash) st3)
  else st3

/-- `ExecutionEngine.shouldAbortOnSkip`. -/
def shouldAbortOnSkip (s : EStep) (stopOnFailure : Bool) : Bool :=
  stopOnFailure && (s.riskLevel == .high || s.riskLevel == .critical)

/-- `ExecutionEngine.shouldAbortOnFailure`. -/
def shouldAbortOnFailure (s : EStep) (stopOnFailure : Bool) : Bool :=
  stopOnFailure && (s.riskLevel == .high || s.riskLevel == .critical)

/-- The forced outcome of a step reached after the plan aborted: skipped,
with the fixed abort error, untouched otherwise. -/
def forceSkip (s : EStep) : EStep :=
  { s with status := .skipped, error := some "Execution aborted due to previous failure" }

/-- A status is terminal when it is completed, failed or skipped. -/
def terminalB (st : StepStatus) : Bool :=
  st == .completed || st == .failed || st == .skipped

/-- Output of one iteration of the engine loop. -/
structure StepOut where
  step : EStep
  aborted : Bool
  state : ExecState
  events : List Event
deriving Repr

/-- One iteration of the loop in `ExecutionEngine.execute`: an aborted plan
forces the step to skipped untouched by evaluation; otherwise the step goes
in-progress, its conditions are evaluated, and the tool is invoked when all
are met, the try/catch turning a thrown tool error into a failed status. -/
def processStep (env : Env) (opts : Options) (aborted : Bool) (s : EStep) (st : ExecState) :
    StepOut :=
  if aborted then
    { step := forceSkip s
      aborted := aborted
      state := st
      events := [] }
  else
    let s1 := { s with status := .inProgress }
    let cr := evaluateStepConditions env s1 st
    if !cr.allMet then
      { step := { s1 with status := .skipped, error := cr.reason }
        aborted := aborted || shouldAbortOnSkip s1 opts.stopOnFailure
        state := cr.state
        events := cr.events }
    else
      match env.toolOutcome s1.toolName s1.parameters with
      | .ok r =>
          let s2 := { s1 with result := some r, status := .completed }
          { step := s2
            aborted := aborted
            state := updateExecutionState s2 r cr.state
            events := cr.events ++ [.toolCall s1.id] }
      | .error e =>
          { step := { s1 with status := .failed, error := some (jsErrMsg e) }
            aborted := aborted || shouldAbortOnFailure s1 opts.stopOnFailure
            state := cr.state
            events := cr.events ++ [.toolCall s1.id] }

/-- Output of the whole loop. -/
structure RunOut where
  steps : List EStep
  aborted : Bool
  state : ExecState
  events : List Event
deriving Repr

/-- The step loop of `ExecutionEngine.execute`. -/
def runSteps (env : Env) (opts : Options) : Bool → List EStep → ExecState → RunOut
  | ab, [], st => { steps := [], aborted := ab, state := st, events := [] }
  | ab, s :: rest, st =>
      let so := processStep env opts ab s st
      let ro := runSteps env opts so.aborted rest so.state
      { steps := so.step :: ro.steps
        aborted := ro.aborted
        state := ro.state
        events := so.events ++ ro.events }

/-- The execution summary. -/
structure Summary where
  totalSteps : ℕ
  completed : ℕ
  failed : ℕ
  skipped : ℕ
  aborted : Bool
deriving DecidableEq, Repr

/-- `ExecutionEngine.generateSummary`. -/
def generateSummary (steps : List EStep) (aborted : Bool) : Summary :=
  { totalSteps := steps.length
    completed := (steps.filter (fun s => s.status == .completed)).length
    failed := (steps.filter (fun s => s.status == .failed)).length
    skipped := (steps.filter (fun s => s.status == .skipped)).length
    aborted }

/-- Return shape of `ExecutionEngine.execute`. -/
structure ExecutionResult where
  plan : EPlan
  executionState : ExecState
  summary : Summary
deriving Repr

/-- `ExecutionEngine.execute`: run the loop from a non-aborted start over
the given initial execution state, and summarize. The emitted event trace is
returned alongside. -/
def execute (env : Env) (plan : EPlan) (opts : Options) (st0 : ExecState) :
    ExecutionResult × List Event :=
  let ro := runSteps env opts false plan.steps st0
  ({ plan := { plan with steps := ro.steps }
     executionState := ro.state
     summary := generateSummary ro.steps ro.aborted },
   ro.events)

end ExecutionEngine

/-! ## Nonce coordinator (CronosTransferExecutor.transferToken, src/finance/cronos-transfer-executor.ts)

Only the serialized nonce-assignment section of `transferToken` is embedded:
one call happens at a ledger-clock time, sees a ledger pending nonce (what
`wallet.getNonce('latest')` would return), and its submission either
succeeds or throws. The surrounding mutex makes calls sequential; the
embedding processes a list of calls in that serialized order. -/

namespace CronosTransferExecutor

/-- The static nonce cache: the next nonce to hand out and the time of the
last ledger query. -/
structure NonceCache where
  lastNonce : Option ℤ := none
  lastNonceTime : ℤ := 0
deriving DecidableEq, Repr

/-- One serialized transfer call: its wall-clock time, the nonce the ledger
would report, and whether the submission succeeds. -/
structure TransferCall where
  now : ℤ
  ledgerNonce : ℤ
  submitOk : Bool
deriving DecidableEq, Repr

/-- Observable outcome of one call: the nonce its transaction was assigned
(`none` when the call threw) and whether the ledger was re-queried. -/
structure TransferOut where
  assigned : Option ℤ
  queriedLedger : Bool
deriving DecidableEq, Repr

/-- The nonce-assignment section of `transferToken`: use the cached nonce
when it is present and fresher than 2000 ms, else re-query the ledger and
reseed the cache; on a submission error the catch block nulls the cached
nonce and rethrows. -/
def transferNonceStep (st : NonceCache) (c : TransferCall) : TransferOut × NonceCache :=
  match st.lastNonce with
  | some ln =>
      if c.now - st.lastNonceTime < 2000 then
        if c.submitOk then (⟨some ln, false⟩, ⟨some (ln + 1), st.lastNonceTime⟩)
        else (⟨none, false⟩, ⟨none, st.lastNonceTime⟩)
      else
        if c.submitOk then (⟨some c.ledgerNonce, true⟩, ⟨some (c.ledgerNonce + 1), c.now⟩)
        else (⟨none, true⟩, ⟨none, c.now⟩)
  | none =>
      if c.submitOk then (⟨some c.ledgerNonce, true⟩, ⟨some (c.ledgerNonce + 1), c.now⟩)
      else (⟨none, true⟩, ⟨none, c.now⟩)

/-- A serialized run of transfer calls through the shared cache. -/
def runTransfers (st : NonceCache) : List TransferCall → List TransferOut × NonceCache
  | [] => ([], st)
  | c :: rest =>
      let r := transferNonceStep st c
      let rr := runTransfers r.2 rest
      (r.1 :: rr.1, rr.2)

end CronosTransferExecutor

/-! ## Shared lemmas -/

/-- Appending to a non-empty string stays non-empty. -/
theorem strAppendNeEmpty (a b : String) (ha : a ≠ "") : a ++ b ≠ "" := by
  intro h
  have hl : (a ++ b).length = 0 := by rw [h]; rfl
  rw [String.length_append] at hl
  have hz : a.length = 0 := by omega
  exact ha (by
    cases a with
    | mk data =>
      cases data with
      | nil => rfl
      | cons c cs => simp [String.length] at hz)

/-- Reduction of `Except` bind on a success. -/
@[simp] theorem exBindOk {α β ε : Type} (a : α) (f : α → Except ε β) :
    (Except.ok a : Except ε α) >>= f = f a := rfl

/-- Reduction of `Except` bind on an error. -/
@[simp] theorem exBindErr {α β ε : Type} (e : ε) (f : α → Except ε β) :
    (Except.error e : Except ε α) >>= f = Except.error e := rfl

/-- Reduction of `pure` for `Except`. -/
@[simp] theorem exPureEq {α ε : Type} (a : α) : (pure a : Except ε α) = Except.ok a := rfl

/-- A `NaN` left operand makes every base comparison other than not-equal false. -/
theorem compareNumsNanLeft (e : JSNum) (op : ConditionOperator) (hop : op ≠ .neq) :
    ConditionEvaluator.compareNums none op e = false := by
  cases op <;> first
    | exact absurd rfl hop
    | cases e <;> rfl

/-- A `NaN` right operand makes every base comparison other than not-equal false. -/
theorem compareNumsNanRight (a : JSNum) (op : ConditionOperator) (hop : op ≠ .neq) :
    ConditionEvaluator.compareNums a op none = false := by
  cases op <;> first
    | exact absurd rfl hop
    | cases a <;> rfl

/-- A `NaN` operand makes the base not-equal comparison true. -/
theorem compareNumsNanNeq (a e : JSNum) (h : a = none ∨ e = none) :
    ConditionEvaluator.compareNums a .neq e = true := by
  rcases h with h | h
  · subst h; cases e <;> rfl
  · subst h; cases a <;> rfl

/-! ## Claim theorems -/

/-- C10: in the base evaluator's comparison, string operands go through
`parseFloat`, so when either operand is a string that does not parse, every
operator except not-equal evaluates to false and not-equal to true; a custom
condition asserting equality of two identical non-numeric strings is
reported not met, one asserting inequality is reported met. -/
theorem compare_nonnumeric_string (s : String) (hs : parseFloat s = none) :
    (∀ (v : JSValue) (op : ConditionOperator), op ≠ ConditionOperator.neq →
      ConditionEvaluator.compareValues (JSValue.str s) op v = false ∧
      ConditionEvaluator.compareValues v op (JSValue.str s) = false) ∧
    (∀ v : JSValue,
      ConditionEvaluator.compareValues (JSValue.str s) ConditionOperator.neq v = true ∧
      ConditionEvaluator.compareValues v ConditionOperator.neq (JSValue.str s) = true) ∧
    (∀ (ctx : ConditionEvaluator.Context) (f : String),
      ctx.executionState.lookup f = some (JSValue.str s) →
      (ConditionEvaluator.evaluate
        { type := "custom", field := f, operator := .eq, value := .str s } ctx).met = false ∧
      (ConditionEvaluator.evaluate
        { type := "custom", field := f, operator := .neq, value := .str s } ctx).met = true) := by
  have hnum : (JSValue.str s).toNum = none := by simp [JSValue.toNum, hs]
  refine ⟨fun v op hop => ⟨?_, ?_⟩, fun v => ⟨?_, ?_⟩, fun ctx f hf => ⟨?_, ?_⟩⟩
  · rw [ConditionEvaluator.compareValues, hnum]
    exact compareNumsNanLeft _ _ hop
  · rw [ConditionEvaluator.compareValues, hnum]
    exact compareNumsNanRight _ _ hop
  · rw [ConditionEvaluator.compareValues, hnum]
    exact compareNumsNanNeq _ _ (Or.inl rfl)
  · rw [ConditionEvaluator.compareValues, hnum]
    exact compareNumsNanNeq _ _ (Or.inr rfl)
  · simp [ConditionEvaluator.evaluate, ConditionEvaluator.evaluateCustomCondition, hf,
      ConditionEvaluator.compareValues, hnum, ConditionEvaluator.compareNums]
  · simp [ConditionEvaluator.evaluate, ConditionEvaluator.evaluateCustomCondition, hf,
      ConditionEvaluator.compareValues, hnum, ConditionEvaluator.compareNums]

/-- Witness for C10 at the concrete non-numeric string "hello". -/
theorem compare_nonnumeric_string_witness :
    ConditionEvaluator.compareValues (JSValue.str "hello") ConditionOperator.eq
      (JSValue.str "hello") = false ∧
    ConditionEvaluator.compareValues (JSValue.str "hello") ConditionOperator.neq
      (JSValue.str "hello") = true ∧
    (ConditionEvaluator.evaluate
      { type := "custom", field := "f", operator := .eq, value := .str "hello" }
      { getBalance := Except.error "down", executionState := [("f", .str "hello")] }).met
        = false := by
  have h := compare_nonnumeric_string "hello" (by decide)
  exact ⟨(h.1 (.str "hello") .eq (by decide)).1, (h.2.1 (.str "hello")).1,
    (h.2.2 { getBalance := Except.error "down", executionState := [("f", .str "hello")] }
      "f" (by decide)).1⟩

/-- C7 counterexample: the base evaluator's equality comparison is exact
`===`, not epsilon-based. The values 1.00005 and 1 differ by less than the
epsilon 0.0001, yet the base evaluator reports them unequal (and not-equal as
holding), refuting the claim that every numeric equality comparison of the
condition evaluators is epsilon-based. -/
theorem epsilon_claim_counterexample :
    ConditionEvaluator.compareValues (.num (some (100005/100000))) .eq (.num (some 1)) = false ∧
    ConditionEvaluator.compareValues (.num (some (100005/100000))) .neq (.num (some 1)) = true ∧
    |(100005/100000 : ℚ) - 1| < MarketConditionEvaluator.epsilon := by
  refine ⟨?_, ?_, ?_⟩
  · simp only [ConditionEvaluator.compareValues, JSValue.toNum, ConditionEvaluator.compareNums,
      beq_eq_false_iff_ne, ne_eq]
    norm_num
  · simp only [ConditionEvaluator.compareValues, JSValue.toNum, ConditionEvaluator.compareNums,
      bne_iff_ne, ne_eq]
    norm_num
  · have he : MarketConditionEvaluator.epsilon = 1/10000 := by
      norm_num [MarketConditionEvaluator.epsilon]
    have hd : (100005/100000 : ℚ) - 1 = 1/20000 := by norm_num
    rw [he, hd, abs_of_pos (by norm_num)]
    norm_num

/-- C7 amended: the market condition evaluator's equality holds iff the
operands differ by less than the fixed epsilon 0.0001 and its not-equal holds
iff they differ by at least it, while the base condition evaluator compares
parsed numbers with exact floating equality. -/
theorem epsilon_comparisons_amended (a b : ℚ) :
    (MarketConditionEvaluator.compareValues (some a) .eq (some b) = true ↔
      |a - b| < MarketConditionEvaluator.epsilon) ∧
    (MarketConditionEvaluator.compareValues (some a) .neq (some b) = true ↔
      MarketConditionEvaluator.epsilon ≤ |a - b|) ∧
    (ConditionEvaluator.compareNums (some a) .eq (some b) = true ↔ a = b) ∧
    (ConditionEvaluator.compareNums (some a) .neq (some b) = true ↔ a ≠ b) := by
  refine ⟨?_, ?_, ?_, ?_⟩ <;>
    simp [MarketConditionEvaluator.compareValues, ConditionEvaluator.compareNums]

/-- C8: for every trend condition with a symbol, the observed trend derives
from the 24h percentage change by fixed bands (strictly above 2 bullish,
strictly below -2 bearish, else neutral), and the condition is met iff that
trend string equals the expected value lower-cased. -/
theorem trend_bands_and_string_match
    (o : MarketOracle) (connected : Bool) (cond : Condition) (sym : String) (pc : ℚ)
    (hsym : cond.symbol = some sym) (hne : sym ≠ "")
    (htype : cond.type = "trend_check")
    (hconn : connected = true ∨ o.connectResult = Except.ok ())
    (hpc : CryptoComMarketClient.getPriceChange o true sym = Except.ok pc) :
    ∃ t : String,
      CryptoComMarketClient.getMarketTrend o true sym = Except.ok t ∧
      ((t = "bullish" ↔ pc > 2) ∧ (t = "bearish" ↔ pc < -2) ∧
        (t = "neutral" ↔ (-2 ≤ pc ∧ pc ≤ 2))) ∧
      ((MarketConditionEvaluator.evaluate o connected cond).met = true ↔
        t = jsToLower cond.value.display) := by
  have htrend : CryptoComMarketClient.getMarketTrend o true sym =
      Except.ok (if pc > 2 then "bullish" else if pc < -2 then "bearish" else "neutral") := by
    simp [CryptoComMarketClient.getMarketTrend, hpc]
  refine ⟨_, htrend, ⟨?_, ?_, ?_⟩, ?_⟩
  · by_cases h1 : pc > 2
    · rw [if_pos h1]
      exact ⟨fun _ => h1, fun _ => rfl⟩
    · rw [if_neg h1]
      by_cases h2 : pc < -2
      · rw [if_pos h2]
        exact ⟨fun h => absurd h (by decide), fun h => absurd h2 (by linarith)⟩
      · rw [if_neg h2]
        exact ⟨fun h => absurd h (by decide), fun h => absurd h h1⟩
  · by_cases h1 : pc > 2
    · rw [if_pos h1]
      exact ⟨fun h => absurd h (by decide), fun h => absurd h (by linarith)⟩
    · rw [if_neg h1]
      by_cases h2 : pc < -2
      · rw [if_pos h2]
        exact ⟨fun _ => h2, fun _ => rfl⟩
      · rw [if_neg h2]
        exact ⟨fun h => absurd h (by decide), fun h => absurd h h2⟩
  · by_cases h1 : pc > 2
    · rw [if_pos h1]
      exact ⟨fun h => absurd h (by decide), fun h => absurd h.2 (by linarith)⟩
    · rw [if_neg h1]
      by_cases h2 : pc < -2
      · rw [if_pos h2]
        exact ⟨fun h => absurd h (by decide), fun h => absurd h.1 (by linarith)⟩
      · rw [if_neg h2]
        push_neg at h1 h2
        exact ⟨fun _ => ⟨h2, h1⟩, fun _ => rfl⟩
  · have hev : MarketConditionEvaluator.evaluate o connected cond =
        MarketConditionEvaluator.evalDispatch o cond := by
      rcases hconn with h | h
      · subst h; rfl
      · cases connected
        · simp [MarketConditionEvaluator.evaluate, h]
        · rfl
    rw [hev]
    simp [MarketConditionEvaluator.evalDispatch,
      MarketConditionEvaluator.evaluateTrendCondition, htype, hsym, hne, jsFalsyStr,
      htrend, beq_iff_eq]

/-- Witness for C8: with a reported 24h change of 4 the trend is bullish and
an expected value of "BULLISH" matches after lower-casing. -/
theorem trend_bands_and_string_match_witness :
    (MarketConditionEvaluator.evaluate
      { connectResult := Except.ok ()
        priceResult := fun _ => Except.ok { change_24h := some "4" } }
      false
      { type := "trend_check", field := "trend", operator := .eq,
        value := .str "BULLISH", symbol := some "CRO" }).met = true := by
  have hpc : CryptoComMarketClient.getPriceChange
      { connectResult := Except.ok ()
        priceResult := fun _ => Except.ok { change_24h := some "4" } } true "CRO" =
      Except.ok 4 := by
    simp [CryptoComMarketClient.getPriceChange, CryptoComMarketClient.getPrice,
      jsFalsyStr, parseFloat, parseFloatCore, digitsToNat]
  have h := trend_bands_and_string_match
    { connectResult := Except.ok ()
      priceResult := fun _ => Except.ok { change_24h := some "4" } }
    false
    { type := "trend_check", field := "trend", operator := .eq,
      value := .str "BULLISH", symbol := some "CRO" }
    "CRO" 4 rfl (by decide) rfl (Or.inr rfl) hpc
  rcases h with ⟨t, _, hbands, hmet⟩
  have ht : t = "bullish" := hbands.1.mpr (by norm_num)
  exact hmet.mpr (by rw [ht]; decide)

/-- A failing price query makes `getPrice` throw the transport error. -/
theorem getPriceErrOfQueryErr (o : MarketOracle) (s e : String)
    (h : o.priceResult s.toUpper = Except.error e) :
    CryptoComMarketClient.getPrice o true s = Except.error e := by
  simp [CryptoComMarketClient.getPrice, h]

/-- A failing price query makes `getVolatility` throw the transport error. -/
theorem getVolatilityErrOfQueryErr (o : MarketOracle) (s e : String)
    (h : o.priceResult s.toUpper = Except.error e) :
    CryptoComMarketClient.getVolatility o true s = Except.error e := by
  simp [CryptoComMarketClient.getVolatility, getPriceErrOfQueryErr o s e h]

/-- A failing price query makes `getPriceChange` throw the transport error. -/
theorem getPriceChangeErrOfQueryErr (o : MarketOracle) (s e : String)
    (h : o.priceResult s.toUpper = Except.error e) :
    CryptoComMarketClient.getPriceChange o true s = Except.error e := by
  simp [CryptoComMarketClient.getPriceChange, getPriceErrOfQueryErr o s e h]

/-- A failing price query makes `getMarketTrend` throw the transport error. -/
theorem getMarketTrendErrOfQueryErr (o : MarketOracle) (s e : String)
    (h : o.priceResult s.toUpper = Except.error e) :
    CryptoComMarketClient.getMarketTrend o true s = Except.error e := by
  simp [CryptoComMarketClient.getMarketTrend, getPriceChangeErrOfQueryErr o s e h]

/-- A connected (or connectable) market evaluator goes straight to dispatch. -/
theorem marketEvalConnected (o : MarketOracle) (connected : Bool) (cond : Condition)
    (h : connected = true ∨ o.connectResult = Except.ok ()) :
    MarketConditionEvaluator.evaluate o connected cond =
      MarketConditionEvaluator.evalDispatch o cond := by
  rcases h with h | h
  · subst h; rfl
  · cases connected
    · simp [MarketConditionEvaluator.evaluate, h]
    · rfl

/-- C4: condition evaluation is total and degrades failures: a failed
balance-collaborator query, an unknown condition kind, an unreachable
market-data collaborator, and a failed market query each yield a returned
result with `met = false` and a non-empty human-readable reason — never a
propagated exception (both `evaluate` embeddings are total functions whose
source try/catch blocks are modelled exactly). -/
theorem condition_evaluation_degrades_failures :
    (∀ (cond : Condition) (ctx : ConditionEvaluator.Context) (e : String),
      cond.type = "balance_check" → ctx.getBalance = Except.error e →
      (ConditionEvaluator.evaluate cond ctx).met = false ∧
      (ConditionEvaluator.evaluate cond ctx).reason ≠ "") ∧
    (∀ (cond : Condition) (ctx : ConditionEvaluator.Context),
      cond.type ≠ "balance_check" → cond.type ≠ "custom" →
      (ConditionEvaluator.evaluate cond ctx).met = false ∧
      (ConditionEvaluator.evaluate cond ctx).reason ≠ "") ∧
    (∀ (o : MarketOracle) (cond : Condition) (e : String),
      o.connectResult = Except.error e →
      (MarketConditionEvaluator.evaluate o false cond).met = false ∧
      (MarketConditionEvaluator.evaluate o false cond).reason ≠ "") ∧
    (∀ (o : MarketOracle) (connected : Bool) (cond : Condition) (e : String),
      (connected = true ∨ o.connectResult = Except.ok ()) →
      o.priceResult ((cond.symbol.getD "").toUpper) = Except.error e →
      (MarketConditionEvaluator.evaluate o connected cond).met = false ∧
      (MarketConditionEvaluator.evaluate o connected cond).reason ≠ "") := by
  refine ⟨?_, ?_, ?_, ?_⟩
  · intro cond ctx e htype hbal
    have hrun : ConditionEvaluator.evaluate cond ctx =
        { met := false, reason := "Condition evaluation error: " ++ jsErrMsg e } := by
      simp [ConditionEvaluator.evaluate, htype, ConditionEvaluator.evaluateBalanceCheck, hbal]
    rw [hrun]
    exact ⟨rfl, strAppendNeEmpty _ _ (by decide)⟩
  · intro cond ctx h1 h2
    have hrun : ConditionEvaluator.evaluate cond ctx =
        { met := false, reason := "Unknown condition type: " ++ cond.type } := by
      simp [ConditionEvaluator.evaluate, h1, h2]
    rw [hrun]
    exact ⟨rfl, strAppendNeEmpty _ _ (by decide)⟩
  · intro o cond e hc
    have hrun : MarketConditionEvaluator.evaluate o false cond =
        { met := false
          reason := "Cannot evaluate market condition: Failed to connect to Crypto.com Market Data MCP: " ++
            e ++ ". Market-aware conditions require access to https://mcp.crypto.com/market-data/mcp" } := by
      simp [MarketConditionEvaluator.evaluate, hc]
    rw [hrun]
    exact ⟨rfl, strAppendNeEmpty _ _ (strAppendNeEmpty _ _ (by decide))⟩
  · intro o connected cond e hconn hq
    rw [marketEvalConnected o connected cond hconn]
    by_cases h1 : cond.type = "price_check"
    · by_cases h2 : jsFalsyStr cond.symbol
      · have hd : MarketConditionEvaluator.evalDispatch o cond =
            { met := false, reason := "Price condition requires a symbol" } := by
          simp [MarketConditionEvaluator.evalDispatch, h1,
            MarketConditionEvaluator.evaluatePriceCondition, h2]
        rw [hd]; exact ⟨rfl, by decide⟩
      · have hd : MarketConditionEvaluator.evalDispatch o cond =
            { met := false, reason := "Market condition evaluation failed: " ++ e } := by
          simp [MarketConditionEvaluator.evalDispatch, h1,
            MarketConditionEvaluator.evaluatePriceCondition, h2,
            getPriceErrOfQueryErr o (cond.symbol.getD "") e hq]
        rw [hd]; exact ⟨rfl, strAppendNeEmpty _ _ (by decide)⟩
    · by_cases h3 : cond.type = "volatility_check"
      · by_cases h2 : jsFalsyStr cond.symbol
        · have hd : MarketConditionEvaluator.evalDispatch o cond =
              { met := false, reason := "Volatility condition requires a symbol" } := by
            simp [MarketConditionEvaluator.evalDispatch, h1, h3,
              MarketConditionEvaluator.evaluateVolatilityCondition, h2]
          rw [hd]; exact ⟨rfl, by decide⟩
        · have hd : MarketConditionEvaluator.evalDispatch o cond =
              { met := false, reason := "Market condition evaluation failed: " ++ e } := by
            simp [MarketConditionEvaluator.evalDispatch, h1, h3,
              MarketConditionEvaluator.evaluateVolatilityCondition, h2,
              getVolatilityErrOfQueryErr o (cond.symbol.getD "") e hq]
          rw [hd]; exact ⟨rfl, strAppendNeEmpty _ _ (by decide)⟩
      · by_cases h4 : cond.type = "trend_check"
        · by_cases h2 : jsFalsyStr cond.symbol
          · have hd : MarketConditionEvaluator.evalDispatch o cond =
                { met := false, reason := "Trend condition requires a symbol" } := by
              simp [MarketConditionEvaluator.evalDispatch, h1, h3, h4,
                MarketConditionEvaluator.evaluateTrendCondition, h2]
            rw [hd]; exact ⟨rfl, by decide⟩
          · have hd : MarketConditionEvaluator.evalDispatch o cond =
                { met := false, reason := "Market condition evaluation failed: " ++ e } := by
              simp [MarketConditionEvaluator.evalDispatch, h1, h3, h4,
                MarketConditionEvaluator.evaluateTrendCondition, h2,
                getMarketTrendErrOfQueryErr o (cond.symbol.getD "") e hq]
            rw [hd]; exact ⟨rfl, strAppendNeEmpty _ _ (by decide)⟩
        · have hd : MarketConditionEvaluator.evalDispatch o cond =
              { met := false, reason := "Unsupported market condition type: " ++ cond.type } := by
            simp [MarketConditionEvaluator.evalDispatch, h1, h3, h4]
          rw [hd]; exact ⟨rfl, strAppendNeEmpty _ _ (by decide)⟩

/-- Witness for C4: an unreachable market collaborator degrades a price
condition to not-met with a non-empty reason, and an unknown condition kind
degrades likewise in the base evaluator. -/
theorem condition_evaluation_degrades_failures_witness :
    (MarketConditionEvaluator.evaluate
      { connectResult := Except.error "fetch failed"
        priceResult := fun _ => Except.error "fetch failed" }
      false
      { type := "price_check", field := "price", operator := .gt,
        value := .num (some 1), symbol := some "CRO" }).met = false ∧
    (MarketConditionEvaluator.evaluate
      { connectResult := Except.error "fetch failed"
        priceResult := fun _ => Except.error "fetch failed" }
      false
      { type := "price_check", field := "price", operator := .gt,
        value := .num (some 1), symbol := some "CRO" }).reason ≠ "" ∧
    (ConditionEvaluator.evaluate
      { type := "weird", field := "x", operator := .eq, value := .num (some 0) }
      { getBalance := Except.error "down", executionState := [] }).met = false := by
  have h := condition_evaluation_degrades_failures
  refine ⟨(h.2.2.1 _ _ "fetch failed" rfl).1, (h.2.2.1 _ _ "fetch failed" rfl).2,
    (h.2.1 { type := "weird", field := "x", operator := .eq, value := .num (some 0) }
      { getBalance := Except.error "down", executionState := [] }
      (by decide) (by decide)).1⟩

/-- Prepending the head of an assigned-nonce run to a shifted range of
follow-ups is the unshifted range. -/
theorem rangeMapSuccCons (m : ℤ) (k : ℕ) :
    some m :: (List.range k).map (fun i : ℕ => some (m + 1 + i)) =
      (List.range (k + 1)).map (fun i : ℕ => (some (m + i) : Option ℤ)) := by
  rw [List.range_succ_eq_map, List.map_cons, List.map_map]
  have hfun : ((fun i : ℕ => (some (m + i) : Option ℤ)) ∘ Nat.succ) =
      (fun i : ℕ => (some (m + 1 + i) : Option ℤ)) := by
    funext j
    simp only [Function.comp]
    push_cast
    ring_nf
  rw [hfun]
  simp

/-- A run starting from a fresh cache entry `m` whose calls all succeed
within the window hands out `m, m+1, …` without re-querying. -/
theorem runTransfersCachedRun (t0 : ℤ) (rest : List CronosTransferExecutor.TransferCall) :
    ∀ m : ℤ,
      (∀ c ∈ rest, c.submitOk = true ∧ c.now - t0 < 2000) →
      (CronosTransferExecutor.runTransfers ⟨some m, t0⟩ rest).1.map
          CronosTransferExecutor.TransferOut.assigned =
        (List.range rest.length).map (fun i : ℕ => some (m + i)) := by
  induction rest with
  | nil =>
      intro m _
      simp [CronosTransferExecutor.runTransfers]
  | cons c cs ih =>
      intro m h
      obtain ⟨hok, ht⟩ := h c (List.mem_cons_self c cs)
      have hstep : CronosTransferExecutor.transferNonceStep ⟨some m, t0⟩ c =
          (⟨some m, false⟩, ⟨some (m + 1), t0⟩) := by
        simp [CronosTransferExecutor.transferNonceStep, ht, hok]
      have htail := ih (m + 1) (fun c' hc' => h c' (List.mem_cons_of_mem _ hc'))
      simp only [CronosTransferExecutor.runTransfers, hstep, List.map_cons]
      rw [htail]
      exact rangeMapSuccCons m cs.length

/-- C1: a run of sequential mutating transfer calls whose first call finds a
stale cache and all of whose follow-ups succeed within the freshness window
is assigned exactly the nonces n, n+1, …, n+N-1 (n being the ledger's answer
at the first call, which is queried); a submission error always invalidates
the cached nonce, and a call that finds an invalidated cache re-queries the
ledger and uses the ledger's value. -/
theorem nonce_sequence_and_invalidation :
    (∀ (st0 : CronosTransferExecutor.NonceCache) (t0 n : ℤ)
        (rest : List CronosTransferExecutor.TransferCall),
      (st0.lastNonce = none ∨ 2000 ≤ t0 - st0.lastNonceTime) →
      (∀ c ∈ rest, c.submitOk = true ∧ c.now - t0 < 2000) →
      (CronosTransferExecutor.runTransfers st0
          ({ now := t0, ledgerNonce := n, submitOk := true } :: rest)).1.map
          CronosTransferExecutor.TransferOut.assigned =
        (List.range (rest.length + 1)).map (fun i : ℕ => some (n + i)) ∧
      ((CronosTransferExecutor.runTransfers st0
          ({ now := t0, ledgerNonce := n, submitOk := true } :: rest)).1.headD
          ⟨none, false⟩).queriedLedger = true) ∧
    (∀ (st : CronosTransferExecutor.NonceCache) (c : CronosTransferExecutor.TransferCall),
      c.submitOk = false →
      (CronosTransferExecutor.transferNonceStep st c).2.lastNonce = none) ∧
    (∀ (st : CronosTransferExecutor.NonceCache) (c : CronosTransferExecutor.TransferCall),
      st.lastNonce = none →
      (CronosTransferExecutor.transferNonceStep st c).1.queriedLedger = true ∧
      (CronosTransferExecutor.transferNonceStep st c).1.assigned =
        (if c.submitOk then some c.ledgerNonce else none)) := by
  refine ⟨?_, ?_, ?_⟩
  · intro st0 t0 n rest hstale hrest
    have hfirst : CronosTransferExecutor.transferNonceStep st0
        { now := t0, ledgerNonce := n, submitOk := true } =
        (⟨some n, true⟩, ⟨some (n + 1), t0⟩) := by
      cases hln : st0.lastNonce with
      | none => simp [CronosTransferExecutor.transferNonceStep, hln]
      | some ln =>
          rcases hstale with h | h
          · rw [hln] at h; exact absurd h (by simp)
          · have hnl : ¬ (t0 - st0.lastNonceTime < 2000) := by omega
            simp [CronosTransferExecutor.transferNonceStep, hln, hnl]
    constructor
    · simp only [CronosTransferExecutor.runTransfers, hfirst, List.map_cons]
      rw [runTransfersCachedRun t0 rest (n + 1) hrest]
      exact rangeMapSuccCons n rest.length
    · simp [CronosTransferExecutor.runTransfers, hfirst]
  · intro st c h
    cases hln : st.lastNonce with
    | none => simp [CronosTransferExecutor.transferNonceStep, hln, h]
    | some ln =>
        by_cases hti : c.now - st.lastNonceTime < 2000 <;>
          simp [CronosTransferExecutor.transferNonceStep, hln, h, hti]
  · intro st c h
    cases hok : c.submitOk <;>
      simp [CronosTransferExecutor.transferNonceStep, h, hok]

/-- Witness for C1: from an empty cache, two in-window successful calls get
nonces 5 and 6, the first having queried the ledger; a failed call nulls the
cache; and a call on a nulled cache re-queries and uses the ledger value. -/
theorem nonce_sequence_and_invalidation_witness :
    (CronosTransferExecutor.runTransfers { lastNonce := none, lastNonceTime := 0 }
        [{ now := 1000, ledgerNonce := 5, submitOk := true },
         { now := 1500, ledgerNonce := 99, submitOk := true }]).1.map
        CronosTransferExecutor.TransferOut.assigned = [some 5, some 6] ∧
    (CronosTransferExecutor.transferNonceStep { lastNonce := some 7, lastNonceTime := 1000 }
        { now := 1200, ledgerNonce := 9, submitOk := false }).2.lastNonce = none ∧
    (CronosTransferExecutor.transferNonceStep { lastNonce := none, lastNonceTime := 1200 }
        { now := 1300, ledgerNonce := 9, submitOk := true }).1.assigned = some 9 := by
  have h := nonce_sequence_and_invalidation
  refine ⟨?_, h.2.1 _ _ rfl, ?_⟩
  · have h1 := (h.1 { lastNonce := none, lastNonceTime := 0 } 1000 5
      [{ now := 1500, ledgerNonce := 99, submitOk := true }] (Or.inl rfl)
      (by intro c hc; simp at hc; subst hc; exact ⟨rfl, by norm_num⟩)).1
    simpa [List.range_succ_eq_map] using h1
  · have h3 := (h.2.2 { lastNonce := none, lastNonceTime := 1200 }
      { now := 1300, ledgerNonce := 9, submitOk := true } rfl).2
    simpa using h3

/-- With the aborted flag already set, a step is forced to skipped with the
abort error, no event is emitted, and the state and flag are untouched. -/
theorem processStepAborted (env : ExecutionEngine.Env) (opts : ExecutionEngine.Options)
    (s : ExecutionEngine.EStep) (st : ExecutionEngine.ExecState) :
    ExecutionEngine.processStep env opts true s st =
      { step := ExecutionEngine.forceSkip s, aborted := true, state := st, events := [] } := rfl

/-- With the aborted flag set, the whole remaining run is forced to skipped:
no events, untouched state, flag still set. -/
theorem runStepsAbortedForcesSkip (env : ExecutionEngine.Env) (opts : ExecutionEngine.Options) :
    ∀ (steps : List ExecutionEngine.EStep) (st : ExecutionEngine.ExecState),
      ExecutionEngine.runSteps env opts true steps st =
        { steps := steps.map ExecutionEngine.forceSkip
          aborted := true
          state := st
          events := [] } := by
  intro steps
  induction steps with
  | nil => intro st; rfl
  | cons s rest ih =>
      intro st
      simp [ExecutionEngine.runSteps, processStepAborted, ih]

/-- The run of an appended step list is the run of the first part followed by
the run of the second from the first's final flag and state. -/
theorem runStepsAppend (env : ExecutionEngine.Env) (opts : ExecutionEngine.Options) :
    ∀ (xs ys : List ExecutionEngine.EStep) (ab : Bool) (st : ExecutionEngine.ExecState),
      ExecutionEngine.runSteps env opts ab (xs ++ ys) st =
        { steps := (ExecutionEngine.runSteps env opts ab xs st).steps ++
            (ExecutionEngine.runSteps env opts (ExecutionEngine.runSteps env opts ab xs st).aborted
              ys (ExecutionEngine.runSteps env opts ab xs st).state).steps
          aborted := (ExecutionEngine.runSteps env opts
            (ExecutionEngine.runSteps env opts ab xs st).aborted
            ys (ExecutionEngine.runSteps env opts ab xs st).state).aborted
          state := (ExecutionEngine.runSteps env opts
            (ExecutionEngine.runSteps env opts ab xs st).aborted
            ys (ExecutionEngine.runSteps env opts ab xs st).state).state
          events := (ExecutionEngine.runSteps env opts ab xs st).events ++
            (ExecutionEngine.runSteps env opts (ExecutionEngine.runSteps env opts ab xs st).aborted
              ys (ExecutionEngine.runSteps env opts ab xs st).state).events } := by
  intro xs
  induction xs with
  | nil => intro ys ab st; simp [ExecutionEngine.runSteps]
  | cons x rest ih =>
      intro ys ab st
      simp [ExecutionEngine.runSteps, ih]

/-- C2: abort monotonicity. In every run, once the aborted flag is true after
some prefix of the steps, every step of the rest ends skipped with the abort
error, with no condition-evaluation or tool-invocation event emitted for it
and the execution state untouched, whatever its conditions would have
evaluated to (the environment is arbitrary). -/
theorem abort_forces_remaining_skipped (env : ExecutionEngine.Env)
    (opts : ExecutionEngine.Options) (st0 : ExecutionEngine.ExecState)
    (pre post : List ExecutionEngine.EStep)
    (h : (ExecutionEngine.runSteps env opts false pre st0).aborted = true) :
    ExecutionEngine.runSteps env opts false (pre ++ post) st0 =
      { steps := (ExecutionEngine.runSteps env opts false pre st0).steps ++
          post.map ExecutionEngine.forceSkip
        aborted := true
        state := (ExecutionEngine.runSteps env opts false pre st0).state
        events := (ExecutionEngine.runSteps env opts false pre st0).events } := by
  rw [runStepsAppend env opts pre post false st0, h,
    runStepsAbortedForcesSkip env opts post (ExecutionEngine.runSteps env opts false pre st0).state]
  simp

/-- Witness for C2: a critical step whose condition is unmet aborts the plan
and the following step is forced to skipped with no events of its own. -/
theorem abort_forces_remaining_skipped_witness :
    ExecutionEngine.runSteps
      { condOutcome := fun _ _ => { met := false, reason := some "balance too low" }
        toolOutcome := fun _ _ => Except.ok {} }
      { stopOnFailure := true } false
      ([{ id := "s1", toolName := "transferToken",
          conditions := [{ type := "balance_check" }], riskLevel := .critical }] ++
       [{ id := "s2", toolName := "getBalance", riskLevel := .low }]) [] =
      { steps := (ExecutionEngine.runSteps
          { condOutcome := fun _ _ => { met := false, reason := some "balance too low" }
            toolOutcome := fun _ _ => Except.ok {} }
          { stopOnFailure := true } false
          [{ id := "s1", toolName := "transferToken",
             conditions := [{ type := "balance_check" }], riskLevel := .critical }] []).steps ++
          [{ id := "s2", toolName := "getBalance", riskLevel := .low }].map
            ExecutionEngine.forceSkip
        aborted := true
        state := (ExecutionEngine.runSteps
          { condOutcome := fun _ _ => { met := false, reason := some "balance too low" }
            toolOutcome := fun _ _ => Except.ok {} }
          { stopOnFailure := true } false
          [{ id := "s1", toolName := "transferToken",
             conditions := [{ type := "balance_check" }], riskLevel := .critical }] []).state
        events := (ExecutionEngine.runSteps
          { condOutcome := fun _ _ => { met := false, reason := some "balance too low" }
            toolOutcome := fun _ _ => Except.ok {} }
          { stopOnFailure := true } false
          [{ id := "s1", toolName := "transferToken",
             conditions := [{ type := "balance_check" }], riskLevel := .critical }] []).events } :=
  abort_forces_remaining_skipped _ _ _ _ _ (by rfl)

/-- Every branch of the engine loop leaves the processed step in a terminal
status. -/
theorem processStepTerminal (env : ExecutionEngine.Env) (opts : ExecutionEngine.Options)
    (ab : Bool) (s : ExecutionEngine.EStep) (st : ExecutionEngine.ExecState) :
    ExecutionEngine.terminalB (ExecutionEngine.processStep env opts ab s st).step.status = true := by
  obtain ⟨sid, sact, stool, spar, scond, srisk, sstat, sres, serr⟩ := s
  cases ab
  · simp only [ExecutionEngine.processStep, Bool.false_eq_true, if_false]
    split
    · rfl
    · split <;> rfl
  · rfl

/-- The engine loop preserves the number of steps. -/
theorem runStepsLength (env : ExecutionEngine.Env) (opts : ExecutionEngine.Options) :
    ∀ (steps : List ExecutionEngine.EStep) (ab : Bool) (st : ExecutionEngine.ExecState),
      (ExecutionEngine.runSteps env opts ab steps st).steps.length = steps.length := by
  intro steps
  induction steps with
  | nil => intro ab st; rfl
  | cons s rest ih => intro ab st; simp [ExecutionEngine.runSteps, ih]

/-- Every step of a finished engine loop carries a terminal status. -/
theorem runStepsTerminal (env : ExecutionEngine.Env) (opts : ExecutionEngine.Options) :
    ∀ (steps : List ExecutionEngine.EStep) (ab : Bool) (st : ExecutionEngine.ExecState),
      ((ExecutionEngine.runSteps env opts ab steps st).steps.all
        (fun s => ExecutionEngine.terminalB s.status)) = true := by
  intro steps
  induction steps with
  | nil => intro ab st; rfl
  | cons s rest ih =>
      intro ab st
      simp only [ExecutionEngine.runSteps, List.all_cons, Bool.and_eq_true]
      exact ⟨processStepTerminal env opts ab s st, ih _ _⟩

/-- Status counts of a list of terminal-status steps add up to its length. -/
theorem terminalCountsAdd :
    ∀ (l : List ExecutionEngine.EStep),
      (∀ s ∈ l, ExecutionEngine.terminalB s.status = true) →
      (l.filter (fun s => s.status == .completed)).length +
        (l.filter (fun s => s.status == .failed)).length +
        (l.filter (fun s => s.status == .skipped)).length = l.length := by
  intro l
  induction l with
  | nil => intro _; rfl
  | cons x xs ih =>
      intro h
      have hx := h x (List.mem_cons_self x xs)
      have hxs := ih (fun s hs => h s (List.mem_cons_of_mem _ hs))
      cases hst : x.status
      · rw [hst] at hx; exact absurd hx (by decide)
      · rw [hst] at hx; exact absurd hx (by decide)
      · simp only [List.filter_cons, hst]
        simp only [show ((StepStatus.completed == StepStatus.completed) = true) from rfl]
        simp
        omega
      · simp only [List.filter_cons, hst]
        simp
        omega
      · simp only [List.filter_cons, hst]
        simp
        omega

/-- C9: after `execute` returns, every step of the returned plan has a
terminal status (completed, failed or skipped — never pending or
in-progress), and the summary satisfies completed + failed + skipped =
totalSteps with totalSteps the plan's step count (each counter being, by
`generateSummary`, the number of steps left in that status). -/
theorem execute_terminal_statuses_and_summary (env : ExecutionEngine.Env)
    (plan : ExecutionEngine.EPlan) (opts : ExecutionEngine.Options)
    (st0 : ExecutionEngine.ExecState) :
    ((ExecutionEngine.execute env plan opts st0).1.plan.steps.all
      (fun s => ExecutionEngine.terminalB s.status)) = true ∧
    (ExecutionEngine.execute env plan opts st0).1.summary.completed +
        (ExecutionEngine.execute env plan opts st0).1.summary.failed +
        (ExecutionEngine.execute env plan opts st0).1.summary.skipped =
      (ExecutionEngine.execute env plan opts st0).1.summary.totalSteps ∧
    (ExecutionEngine.execute env plan opts st0).1.summary.totalSteps = plan.steps.length := by
  refine ⟨runStepsTerminal env opts plan.steps false st0, ?_, ?_⟩
  · exact terminalCountsAdd _
      (List.all_eq_true.mp (runStepsTerminal env opts plan.steps false st0))
  · exact runStepsLength env opts plan.steps false st0

/-- When the first unmet condition has index `k`, the condition loop reports
not-met with that condition's (defaulted) reason, having evaluated exactly
the conditions up to and including `k`. -/
theorem evalCondsFirstUnmet (env : ExecutionEngine.Env) (sid : String) :
    ∀ (conds : List ExecutionEngine.EngCond) (k i : ℕ) (st : ExecutionEngine.ExecState),
      k < conds.length →
      (env.condOutcome sid (i + k)).met = false →
      (∀ j, j < k → (env.condOutcome sid (i + j)).met = true) →
      (ExecutionEngine.evalCondsAux env sid i conds st).allMet = false ∧
      (ExecutionEngine.evalCondsAux env sid i conds st).reason =
        some (ExecutionEngine.reasonOrDefault (env.condOutcome sid (i + k)).reason) ∧
      (ExecutionEngine.evalCondsAux env sid i conds st).events =
        (List.range (k + 1)).map (fun j => ExecutionEngine.Event.condEval sid (i + j)) := by
  intro conds
  induction conds with
  | nil => intro k i st hk; exact absurd hk (by simp)
  | cons c cs ih =>
      intro k i st hk hunmet hfirst
      cases k with
      | zero =>
          have h0 : (env.condOutcome sid i).met = false := by simpa using hunmet
          simp [ExecutionEngine.evalCondsAux, h0,
            show List.range 1 = [0] from rfl]
      | succ m =>
          have h0 : (env.condOutcome sid i).met = true := by
            simpa using hfirst 0 (Nat.succ_pos m)
          have hk' : m < cs.length := by simpa using hk
          have hu : (env.condOutcome sid (i + 1 + m)).met = false := by
            have he : i + 1 + m = i + (m + 1) := by omega
            rw [he]; exact hunmet
          have hf : ∀ j, j < m → (env.condOutcome sid (i + 1 + j)).met = true := by
            intro j hj
            have he : i + 1 + j = i + (j + 1) := by omega
            rw [he]; exact hfirst (j + 1) (by omega)
          have hrec := ih m (i + 1)
            (if ExecutionEngine.marketCondTypes.contains c.type then
              match (env.condOutcome sid i).marketData with
              | some m' =>
                  ExecutionEngine.setState
                    ("market_" ++ (match c.symbol with | some s => s | none => "undefined"))
                    (.marketV m') st
              | none => st
             else st)
            hk' hu hf
      
          obtain ⟨ha, hr, hev⟩ := hrec
          simp only [ExecutionEngine.evalCondsAux, h0, if_true]
          refine ⟨ha, ?_, ?_⟩
          · rw [hr]
            have he : i + 1 + m = i + (m + 1) := by omega
            rw [he]
          · rw [hev]
            have hcomp : ((fun j => ExecutionEngine.Event.condEval sid (i + j)) ∘ Nat.succ) =
                (fun j => ExecutionEngine.Event.condEval sid (i + 1 + j)) := by
              funext j
              simp only [Function.comp]
              congr 1
              omega
            conv_rhs => rw [List.range_succ_eq_map, List.map_cons, List.map_map, hcomp]
            simp

/-- C3 counterexample: with the `stopOnFailure` option disabled, a high-risk
step whose condition is unmet does not set the plan-level aborted flag, so
"aborted iff the step's risk tier is high or critical" is false as stated. -/
theorem abort_iff_risk_counterexample :
    ¬ (((ExecutionEngine.processStep
        { condOutcome := fun _ _ => { met := false, reason := some "balance below requirement" }
          toolOutcome := fun _ _ => Except.ok {} }
        { stopOnFailure := false } false
        { id := "s1", toolName := "transferToken",
          conditions := [{ type := "balance_check" }], riskLevel := .high }
        []).aborted = true) ↔
      (({ id := "s1", toolName := "transferToken",
          conditions := [{ type := "balance_check" }],
          riskLevel := .high } : ExecutionEngine.EStep).riskLevel = .high ∨
       ({ id := "s1", toolName := "transferToken",
          conditions := [{ type := "balance_check" }],
          riskLevel := .high } : ExecutionEngine.EStep).riskLevel = .critical)) := by
  intro h
  have h2 := h.mpr (Or.inl rfl)
  have h3 : (ExecutionEngine.processStep
      { condOutcome := fun _ _ => { met := false, reason := some "balance below requirement" }
        toolOutcome := fun _ _ => Except.ok {} }
      { stopOnFailure := false } false
      { id := "s1", toolName := "transferToken",
        conditions := [{ type := "balance_check" }], riskLevel := .high }
      []).aborted = false := rfl
  rw [h3] at h2
  exact absurd h2 (by decide)

/-- C3 (amended): a step in a non-aborted plan whose first unmet condition
sits at index k in declaration order is marked skipped with that condition's
reason attached as the step's error; its mapped operation is not invoked;
and the plan-level aborted flag is set iff the `stopOnFailure` option is
enabled (its default) and the step's risk tier is high or critical — a
skipped low or medium step, or any skip with `stopOnFailure` disabled, never
stops the plan. -/
theorem skipped_on_unmet_condition (env : ExecutionEngine.Env)
    (opts : ExecutionEngine.Options) (s : ExecutionEngine.EStep)
    (st : ExecutionEngine.ExecState) (k : ℕ) (r : String)
    (hk : k < s.conditions.length)
    (hunmet : (env.condOutcome s.id k).met = false)
    (hfirst : ∀ j, j < k → (env.condOutcome s.id j).met = true)
    (hre : (env.condOutcome s.id k).reason = some r) (hrne : r ≠ "") :
    (ExecutionEngine.processStep env opts false s st).step.status = .skipped ∧
    (ExecutionEngine.processStep env opts false s st).step.error = some r ∧
    ExecutionEngine.Event.toolCall s.id ∉
      (ExecutionEngine.processStep env opts false s st).events ∧
    ((ExecutionEngine.processStep env opts false s st).aborted = true ↔
      (opts.stopOnFailure = true ∧
        (s.riskLevel = .high ∨ s.riskLevel = .critical))) := by
  obtain ⟨sid, sact, stool, spar, scond, srisk, sstat, sres, serr⟩ := s
  simp only at hk hunmet hfirst hre
  have hcr := evalCondsFirstUnmet env sid scond k 0 st hk
    (by simpa using hunmet) (by simpa using hfirst)
  obtain ⟨ha, hr, hev⟩ := hcr
  have hdef : ExecutionEngine.reasonOrDefault (env.condOutcome sid (0 + k)).reason = r := by
    rw [show (0 + k) = k from by omega, hre, ExecutionEngine.reasonOrDefault, if_neg hrne]
  simp only [ExecutionEngine.processStep, Bool.false_eq_true, if_false,
    ExecutionEngine.evaluateStepConditions, ha, Bool.not_false, if_true]
  refine ⟨trivial, ?_, ?_, ?_⟩
  · rw [hr, hdef]
  · rw [hev]
    simp
  · simp [ExecutionEngine.shouldAbortOnSkip]

/-- Witness for C3 (amended): a critical step with one unmet condition is
skipped with the condition's reason, its tool is not invoked, and under the
default `stopOnFailure` the plan aborts. -/
theorem skipped_on_unmet_condition_witness :
    (ExecutionEngine.processStep
      { condOutcome := fun _ _ => { met := false, reason := some "balance too low" }
        toolOutcome := fun _ _ => Except.ok {} }
      { stopOnFailure := true } false
      { id := "s1", toolName := "transferToken",
        conditions := [{ type := "balance_check" }], riskLevel := .critical }
      []).step.status = .skipped ∧
    (ExecutionEngine.processStep
      { condOutcome := fun _ _ => { met := false, reason := some "balance too low" }
        toolOutcome := fun _ _ => Except.ok {} }
      { stopOnFailure := true } false
      { id := "s1", toolName := "transferToken",
        conditions := [{ type := "balance_check" }], riskLevel := .critical }
      []).step.error = some "balance too low" ∧
    ExecutionEngine.Event.toolCall "s1" ∉
      (ExecutionEngine.processStep
        { condOutcome := fun _ _ => { met := false, reason := some "balance too low" }
          toolOutcome := fun _ _ => Except.ok {} }
        { stopOnFailure := true } false
        { id := "s1", toolName := "transferToken",
          conditions := [{ type := "balance_check" }], riskLevel := .critical }
        []).events ∧
    ((ExecutionEngine.processStep
      { condOutcome := fun _ _ => { met := false, reason := some "balance too low" }
        toolOutcome := fun _ _ => Except.ok {} }
      { stopOnFailure := true } false
      { id := "s1", toolName := "transferToken",
        conditions := [{ type := "balance_check" }], riskLevel := .critical }
      []).aborted = true ↔
      (({ stopOnFailure := true } : ExecutionEngine.Options).stopOnFailure = true ∧
        (({ id := "s1", toolName := "transferToken",
            conditions := [{ type := "balance_check" }],
            riskLevel := .critical } : ExecutionEngine.EStep).riskLevel = .high ∨
         ({ id := "s1", toolName := "transferToken",
            conditions := [{ type := "balance_check" }],
            riskLevel := .critical } : ExecutionEngine.EStep).riskLevel = .critical))) :=
  skipped_on_unmet_condition
    { condOutcome := fun _ _ => { met := false, reason := some "balance too low" }
      toolOutcome := fun _ _ => Except.ok {} }
    { stopOnFailure := true }
    { id := "s1", toolName := "transferToken",
      conditions := [{ type := "balance_check" }], riskLevel := .critical }
    [] 0 "balance too low" (by decide) rfl
    (fun j hj => absurd hj (Nat.not_lt_zero j)) rfl (by decide)

/-- Reduction of `throw` for `Except`. -/
@[simp] theorem exThrowEq {α ε : Type} (e : ε) : (throw e : Except ε α) = Except.error e := rfl

/-- C5: the validator crashes instead of accumulating errors on structurally
malformed drafts. A draft whose `steps` field is missing makes `validate`
throw a `TypeError` from `validateSteps` (iterating `undefined`), although
`validateSchema` itself detects and records exactly that problem; a draft
whose `transferToken` step lacks its `parameters` record makes `validate`
throw from the destructuring in `validateTransferStep`. -/
theorem validate_throws_on_malformed_plan :
    PlanValidator.validate ["getBalance", "transferToken"]
      { id := some "plan-1", intent := some "send 5 USDC",
        normalizedIntent := some "send 5 usdc",
        steps := none, overallRiskLevel := some .low } =
      Except.error "TypeError: Cannot read properties of undefined (reading 'forEach')" ∧
    PlanValidator.validateSchema
      { id := some "plan-1", intent := some "send 5 USDC",
        normalizedIntent := some "send 5 usdc",
        steps := none, overallRiskLevel := some .low } =
      ["Plan must have at least one step"] ∧
    PlanValidator.validate ["getBalance", "transferToken"]
      { id := some "plan-2", intent := some "send", normalizedIntent := some "send",
        steps := some [{ id := some "s1", action := some "transfer",
                         toolName := some "transferToken",
                         parameters := none, riskLevel := some .high }],
        overallRiskLevel := some .high } =
      Except.error
        "TypeError: Cannot destructure property 'to' of 'step.parameters' as it is undefined." :=
  ⟨rfl, rfl, rfl⟩

/-- C6: for every accepted plan, either the declared overall risk equals the
maximum step risk under low < medium < high < critical, or the validation
result carries the mismatch warning; and the overall risk level never
influences the error list (hence never validity) — a mismatch cannot make a
plan invalid. -/
theorem overall_risk_matches_or_warned :
    (∀ (tools : List String) (p : PlanValidator.DraftPlan)
        (r : PlanValidator.PlanValidationResult) (steps : List PlanValidator.DraftStep),
      p.steps = some steps →
      PlanValidator.validate tools p = Except.ok r →
      r.valid = true →
      (p.overallRiskLevel =
          some (PlanValidator.getHighestRiskLevel (steps.map (fun s => s.riskLevel))) ∨
        ("Overall risk level (" ++ PlanValidator.riskOptStr p.overallRiskLevel ++
          ") doesn't match highest step risk (" ++
          (PlanValidator.getHighestRiskLevel (steps.map (fun s => s.riskLevel))).str ++ ")")
          ∈ r.warnings)) ∧
    (∀ (tools : List String) (p : PlanValidator.DraftPlan) (rl rl' : RiskLevel),
      (PlanValidator.validate tools { p with overallRiskLevel := some rl }).map
          (fun r => (r.valid, r.errors)) =
        (PlanValidator.validate tools { p with overallRiskLevel := some rl' }).map
          (fun r => (r.valid, r.errors))) := by
  constructor
  · intro tools p r steps hsteps hok hvalid
    by_cases hm : p.overallRiskLevel =
        some (PlanValidator.getHighestRiskLevel (steps.map (fun s => s.riskLevel)))
    · exact Or.inl hm
    right
    have hm' : some (PlanValidator.getHighestRiskLevel (steps.map (fun s => s.riskLevel))) ≠
        p.overallRiskLevel := fun h => hm h.symm
    cases hvs : PlanValidator.validateStepsList tools 0 steps with
    | error e =>
        rw [PlanValidator.validate] at hok
        simp [PlanValidator.validateSteps, hsteps, hvs] at hok
    | ok sc =>
        rw [PlanValidator.validate] at hok
        simp only [PlanValidator.validateSteps, PlanValidator.validateRiskLevels,
          PlanValidator.validateConditions, PlanValidator.sanityChecks, hsteps, hvs,
          exBindOk, exPureEq, Except.ok.injEq] at hok
        rw [← hok]
        simp [if_pos hm']
  · intro tools p rl rl'
    obtain ⟨pid, pint, pnorm, psteps, pov⟩ := p
    cases psteps with
    | none =>
        simp only [PlanValidator.validate, PlanValidator.validateSteps, exThrowEq,
          exBindErr, Except.map]
    | some l =>
        cases hvs : PlanValidator.validateStepsList tools 0 l with
        | error e =>
            simp [PlanValidator.validate, PlanValidator.validateSteps, hvs, Except.map]
        | ok sc =>
            simp [PlanValidator.validate, PlanValidator.validateSteps,
              PlanValidator.validateSchema, PlanValidator.validateRiskLevels,
              PlanValidator.validateConditions, PlanValidator.sanityChecks, hvs, Except.map]

/-- Witness for C6: an accepted plan declaring overall risk low while its
single step is high-risk carries the mismatch warning and stays valid. -/
theorem overall_risk_matches_or_warned_witness :
    PlanValidator.validate ["getBalance", "transferToken"]
      { id := some "p1", intent := some "i", normalizedIntent := some "n",
        steps := some [{ id := some "s1", action := some "check",
                         toolName := some "getBalance",
                         parameters := some {}, riskLevel := some .high }],
        overallRiskLevel := some .low } =
      Except.ok { valid := true, errors := [],
                  warnings := ["Overall risk level (low) doesn't match highest step risk (high)"] } ∧
    "Overall risk level (low) doesn't match highest step risk (high)" ∈
      (PlanValidator.PlanValidationResult.warnings
        { valid := true, errors := [],
          warnings := ["Overall risk level (low) doesn't match highest step risk (high)"] }) := by
  refine ⟨rfl, ?_⟩
  have h := overall_risk_matches_or_warned.1 ["getBalance", "transferToken"]
    { id := some "p1", intent := some "i", normalizedIntent := some "n",
      steps := some [{ id := some "s1", action := some "check",
                       toolName := some "getBalance",
                       parameters := some {}, riskLevel := some .high }],
      overallRiskLevel := some .low }
    { valid := true, errors := [],
      warnings := ["Overall risk level (low) doesn't match highest step risk (high)"] }
    [{ id := some "s1", action := some "check", toolName := some "getBalance",
       parameters := some {}, riskLevel := some .high }]
    rfl rfl rfl
  rcases h with h | h
  · exact absurd h (by decide)
  · exact h
